import Mathlib

/-!
Verification development for the review-analysis cache-aside service
(`django/app/services/review_analysis_service.py`).

The service is embedded shallowly:

* Python runtime values that flow through the service (cached values,
  analysis results) are modelled by the mutual inductive `PyVal` /
  `PyList` / `PyDict`; `PyVal.pyobj` stands for an opaque, non
  JSON-serializable Python object (such as the fabricated
  `EmptyDataFrame` instance or a pandas data frame).
* `hashlib.md5(...).hexdigest()` is modelled by a full MD5
  implementation over byte lists, together with UTF-8 encoding of the
  identifier (Python `str.encode()`).
* `json.dumps(value, ensure_ascii=False)` and `json.loads` are modelled
  by `jsonDumps` (returning `none` where Python raises `TypeError` on a
  non-serializable member) and `jsonLoads` (a strict JSON parser
  returning `none` where Python raises `JSONDecodeError`).
* The Redis client wrapper (`..database.redis_client`, a module of this
  repository that is not part of the provided sources) is modelled from
  the spec as a keyed text store with a connectivity flag and
  per-operation failure-injection flags standing for exceptions thrown
  by the backend.
* The two pipeline stages and the record fetch
  (`company_review_model.get_reviews_by_company`,
  `ReviewDataset.preprocess_reviews`,
  `ReviewSentimentAnalyzer.analyze_reviews_with_keywords`) are opaque
  external collaborators, modelled by an oracle structure `Pipeline`
  whose operations may fail (`Except Unit`), matching the spec's view of
  them as opaque fallible stages.
* `settings.review_analysis_cache_expire_time` is passed as an explicit
  `ttl` argument.

Service methods keep their source names (`analysis_review`,
`clear_analysis_cache`, ...), with the leading underscore of the private
helpers dropped where noted.
-/

/-! ### Python values -/

mutual

/-- A Python runtime value as it flows through the service. -/
inductive PyVal : Type where
  | vnone : PyVal
  | bool (b : Bool) : PyVal
  | int (n : Int) : PyVal
  | float (q : Rat) : PyVal
  | str (s : String) : PyVal
  | list (xs : PyList) : PyVal
  | dict (xs : PyDict) : PyVal
  /-- An opaque Python object (class name and attribute dict); not
  JSON-serializable. -/
  | pyobj (cls : String) (attrs : PyDict) : PyVal
  deriving DecidableEq, Repr

/-- A Python list of `PyVal`s. -/
inductive PyList : Type where
  | nil : PyList
  | cons (hd : PyVal) (tl : PyList) : PyList
  deriving DecidableEq, Repr

/-- A Python dict with string keys, in insertion order. -/
inductive PyDict : Type where
  | nil : PyDict
  | cons (k : String) (v : PyVal) (tl : PyDict) : PyDict
  deriving DecidableEq, Repr

end

/-- Python truthiness (`bool(v)`): `None`, `False`, zero, the empty
string, the empty list and the empty dict are falsy; a generic object is
truthy. -/
def PyVal.truthy : PyVal → Bool
  | .vnone => false
  | .bool b => b
  | .int n => n != 0
  | .float q => q != 0
  | .str s => s != ""
  | .list .nil => false
  | .list _ => true
  | .dict .nil => false
  | .dict _ => true
  | .pyobj _ _ => true

/-- Dictionary lookup (`d[k]` as an option). -/
def PyDict.lookup : PyDict → String → Option PyVal
  | .nil, _ => none
  | .cons k v tl, key => if k = key then some v else tl.lookup key

/-- Key read `v[k]` for mapping values, `none` on non-mappings. -/
def PyVal.getKey : PyVal → String → Option PyVal
  | .dict d, key => d.lookup key
  | _, _ => none

/-! ### UTF-8 encoding (Python `str.encode()`) -/

/-- UTF-8 encoding of a single code point, as a list of byte values. -/
def utf8Bytes (n : Nat) : List Nat :=
  if n < 0x80 then [n]
  else if n < 0x800 then [0xC0 + n / 64, 0x80 + n % 64]
  else if n < 0x10000 then
    [0xE0 + n / 4096, 0x80 + n / 64 % 64, 0x80 + n % 64]
  else
    [0xF0 + n / 262144, 0x80 + n / 4096 % 64, 0x80 + n / 64 % 64,
      0x80 + n % 64]

/-- UTF-8 encoding of a string (`s.encode()` in Python). -/
def utf8Encode (s : String) : List Nat :=
  s.data.flatMap (fun c => utf8Bytes c.toNat)

/-! ### MD5 (model of `hashlib.md5`) -/

namespace MD5

/-- Truncate to an unsigned 32-bit value. -/
def u32 (n : Nat) : Nat := n % 4294967296

/-- Left rotation on 32 bits (input assumed `< 2^32`). -/
def rotl (x s : Nat) : Nat := u32 (x * 2 ^ s) + x / 2 ^ (32 - s)

/-- Bitwise complement on 32 bits (input assumed `< 2^32`). -/
def compl (x : Nat) : Nat := 4294967295 - x

/-- The 64 sine-derived round constants of MD5. -/
def K : List Nat :=
  [0xd76aa478, 0xe8c7b756, 0x242070db, 0xc1bdceee,
   0xf57c0faf, 0x4787c62a, 0xa8304613, 0xfd469501,
   0x698098d8, 0x8b44f7af, 0xffff5bb1, 0x895cd7be,
   0x6b901122, 0xfd987193, 0xa679438e, 0x49b40821,
   0xf61e2562, 0xc040b340, 0x265e5a51, 0xe9b6c7aa,
   0xd62f105d, 0x02441453, 0xd8a1e681, 0xe7d3fbc8,
   0x21e1cde6, 0xc33707d6, 0xf4d50d87, 0x455a14ed,
   0xa9e3e905, 0xfcefa3f8, 0x676f02d9, 0x8d2a4c8a,
   0xfffa3942, 0x8771f681, 0x6d9d6122, 0xfde5380c,
   0xa4beea44, 0x4bdecfa9, 0xf6bb4b60, 0xbebfbc70,
   0x289b7ec6, 0xeaa127fa, 0xd4ef3085, 0x04881d05,
   0xd9d4d039, 0xe6db99e5, 0x1fa27cf8, 0xc4ac5665,
   0xf4292244, 0x432aff97, 0xab9423a7, 0xfc93a039,
   0x655b59c3, 0x8f0ccc92, 0xffeff47d, 0x85845dd1,
   0x6fa87e4f, 0xfe2ce6e0, 0xa3014314, 0x4e0811a1,
   0xf7537e82, 0xbd3af235, 0x2ad7d2bb, 0xeb86d391]

/-- The per-operation left-rotation amounts of MD5. -/
def S : List Nat :=
  [7, 12, 17, 22, 7, 12, 17, 22, 7, 12, 17, 22, 7, 12, 17, 22,
   5, 9, 14, 20, 5, 9, 14, 20, 5, 9, 14, 20, 5, 9, 14, 20,
   4, 11, 16, 23, 4, 11, 16, 23, 4, 11, 16, 23, 4, 11, 16, 23,
   6, 10, 15, 21, 6, 10, 15, 21, 6, 10, 15, 21, 6, 10, 15, 21]

/-- Pad the message: append `0x80`, zero bytes to 56 mod 64, then the
original bit length as 8 little-endian bytes. -/
def pad (msg : List Nat) : List Nat :=
  let bitLen := msg.length * 8 % 2 ^ 64
  let zeros := (55 + 64 - msg.length % 64) % 64
  msg ++ [0x80] ++ List.replicate zeros 0 ++
    (List.range 8).map (fun i => bitLen / 256 ^ i % 256)

/-- Split a byte list into 16 little-endian 32-bit words per 64-byte
block. -/
def toWords (block : List Nat) : List Nat :=
  (List.range 16).map (fun i =>
    block.getD (4 * i) 0 + block.getD (4 * i + 1) 0 * 256 +
      block.getD (4 * i + 2) 0 * 65536 + block.getD (4 * i + 3) 0 * 16777216)

/-- One of the 64 MD5 operations. -/
def op (M : List Nat) (st : Nat × Nat × Nat × Nat) (i : Nat) :
    Nat × Nat × Nat × Nat :=
  let (a, b, c, d) := st
  let (f, g) :=
    if i < 16 then (b.land c |>.lor ((compl b).land d), i)
    else if i < 32 then (b.land d |>.lor (c.land (compl d)), (5 * i + 1) % 16)
    else if i < 48 then (b.xor c |>.xor d, (3 * i + 5) % 16)
    else (c.xor (b.lor (compl d)), 7 * i % 16)
  let f := u32 (f + a + K.getD i 0 + M.getD g 0)
  (d, u32 (b + rotl f (S.getD i 0)), b, c)

/-- Process one 64-byte block, updating the four state words. -/
def processBlock (st : Nat × Nat × Nat × Nat) (block : List Nat) :
    Nat × Nat × Nat × Nat :=
  let M := toWords block
  let (a, b, c, d) := (List.range 64).foldl (op M) st
  let (a0, b0, c0, d0) := st
  (u32 (a0 + a), u32 (b0 + b), u32 (c0 + c), u32 (d0 + d))

/-- Split into 64-byte chunks (fueled so that the recursion is
structural; the fuel `l.length` always suffices since every step
consumes at least one byte). -/
def chunksAux : Nat → List Nat → List (List Nat)
  | _, [] => []
  | 0, _ => []
  | fuel + 1, b :: bs =>
    (b :: bs).take 64 :: chunksAux fuel ((b :: bs).drop 64)

/-- Split into 64-byte chunks. -/
def chunks (l : List Nat) : List (List Nat) :=
  chunksAux l.length l

/-- Four little-endian bytes of one 32-bit word. -/
def wordBytes (w : Nat) : List Nat :=
  [w % 256, w / 256 % 256, w / 65536 % 256, w / 16777216 % 256]

/-- The 16-byte MD5 digest of a byte string. -/
def digest (msg : List Nat) : List Nat :=
  let st :=
    (chunks (pad msg)).foldl processBlock
      (0x67452301, 0xefcdab89, 0x98badcfe, 0x10325476)
  wordBytes st.1 ++ wordBytes st.2.1 ++ wordBytes st.2.2.1 ++
    wordBytes st.2.2.2

end MD5

/-- The lowercase hexadecimal digit for `n % 16`. -/
def hexChar (n : Nat) : Char :=
  "0123456789abcdef".data.getD (n % 16) '0'

/-- Two lowercase hex digits of a byte. -/
def hexByte (b : Nat) : List Char :=
  [hexChar (b / 16), hexChar b]

/-- Lowercase hex string of a byte list (`.hexdigest()`). -/
def hexDigest (bs : List Nat) : String :=
  String.mk (bs.flatMap hexByte)

/-- Model of `hashlib.md5(s.encode()).hexdigest()`. -/
def md5Hex (s : String) : String :=
  hexDigest (MD5.digest (utf8Encode s))

/-! ### The service: cache key derivation -/

/-- Source method `ReviewAnalysisService._get_cache_key` (leading underscore dropped):
hash the company name and prefix the namespace. -/
def get_cache_key (company_name : String) : String :=
  "review_analysis:" ++ md5Hex company_name

/-! ### JSON serialization (model of `json.dumps(value, ensure_ascii=False)`) -/

/-- JSON escape of one character under `ensure_ascii=False`: only the
quote, the backslash and control characters are escaped; everything
else, in particular every non-ASCII character, passes through
verbatim. -/
def escChar (c : Char) : String :=
  if c = '"' then "\\\""
  else if c = '\\' then "\\\\"
  else if c = '\x08' then "\\b"
  else if c = '\x0c' then "\\f"
  else if c = '\n' then "\\n"
  else if c = '\r' then "\\r"
  else if c = '\t' then "\\t"
  else if c.toNat < 0x20 then
    "\\u00" ++ String.mk [hexChar (c.toNat / 16), hexChar c.toNat]
  else String.singleton c

/-- Escaped body of a JSON string literal. -/
def escBody : List Char → String
  | [] => ""
  | c :: cs => escChar c ++ escBody cs

/-- A JSON string literal with quotes. -/
def escString (s : String) : String :=
  "\"" ++ escBody s.data ++ "\""

/-- Decimal rendering of a float value (`repr` of a Python float whose
denominator divides a power of ten, which covers every float produced
by JSON decoding). -/
def ratRepr (q : Rat) : String :=
  if q.den = 1 then toString q.num ++ ".0"
  else
    match (List.range 40).find? (fun k => 10 ^ k % q.den = 0) with
    | some k =>
      let scaled := (q.num.natAbs * 10 ^ k) / q.den
      let ip := scaled / 10 ^ k
      let fp := scaled % 10 ^ k
      let fpStr := toString fp
      let fpPad := String.mk (List.replicate (k - fpStr.length) '0') ++ fpStr
      (if q.num < 0 then "-" else "") ++ toString ip ++ "." ++ fpPad
    | none => toString q.num ++ "/" ++ toString q.den

mutual

/-- Model of `json.dumps(v, ensure_ascii=False)` with Python's default
separators; `none` models the `TypeError` raised on a value that is not
JSON-serializable (an opaque object at any depth). -/
def jsonDumps : PyVal → Option String
  | .vnone => some "null"
  | .bool b => some (if b then "true" else "false")
  | .int n => some (toString n)
  | .float q => some (ratRepr q)
  | .str s => some (escString s)
  | .list xs =>
    match dumpsList xs with
    | some body => some ("[" ++ body ++ "]")
    | none => none
  | .dict xs =>
    match dumpsDict xs with
    | some body => some ("\x7b" ++ body ++ "\x7d")
    | none => none
  | .pyobj _ _ => none

/-- Comma-separated rendering of list elements. -/
def dumpsList : PyList → Option String
  | .nil => some ""
  | .cons v .nil => jsonDumps v
  | .cons v (.cons w tl) =>
    match jsonDumps v, dumpsList (.cons w tl) with
    | some s, some r => some (s ++ ", " ++ r)
    | _, _ => none

/-- Comma-separated rendering of dict entries. -/
def dumpsDict : PyDict → Option String
  | .nil => some ""
  | .cons k v .nil =>
    match jsonDumps v with
    | some s => some (escString k ++ ": " ++ s)
    | none => none
  | .cons k v (.cons k2 w tl) =>
    match jsonDumps v, dumpsDict (.cons k2 w tl) with
    | some s, some r => some (escString k ++ ": " ++ s ++ ", " ++ r)
    | _, _ => none

end

/-! ### JSON parsing (model of `json.loads`) -/

/-- JSON whitespace. -/
def isJsonWs (c : Char) : Bool :=
  c = ' ' || c = '\t' || c = '\n' || c = '\r'

/-- Skip leading JSON whitespace. -/
def skipWs (cs : List Char) : List Char :=
  cs.dropWhile isJsonWs

/-- Value of one hexadecimal digit. -/
def hexVal (c : Char) : Option Nat :=
  if '0' ≤ c ∧ c ≤ '9' then some (c.toNat - 48)
  else if 'a' ≤ c ∧ c ≤ 'f' then some (c.toNat - 87)
  else if 'A' ≤ c ∧ c ≤ 'F' then some (c.toNat - 55)
  else none

/-- Parse the body of a JSON string literal (the opening quote already
consumed); returns the decoded characters and the rest of the input. -/
def parseStr : List Char → Option (List Char × List Char)
  | [] => none
  | '"' :: rest => some ([], rest)
  | '\\' :: '"' :: r => (parseStr r).map (fun p => ('"' :: p.1, p.2))
  | '\\' :: '\\' :: r => (parseStr r).map (fun p => ('\\' :: p.1, p.2))
  | '\\' :: '/' :: r => (parseStr r).map (fun p => ('/' :: p.1, p.2))
  | '\\' :: 'b' :: r => (parseStr r).map (fun p => ('\x08' :: p.1, p.2))
  | '\\' :: 'f' :: r => (parseStr r).map (fun p => ('\x0c' :: p.1, p.2))
  | '\\' :: 'n' :: r => (parseStr r).map (fun p => ('\n' :: p.1, p.2))
  | '\\' :: 'r' :: r => (parseStr r).map (fun p => ('\r' :: p.1, p.2))
  | '\\' :: 't' :: r => (parseStr r).map (fun p => ('\t' :: p.1, p.2))
  | '\\' :: 'u' :: a :: b :: c :: d :: r =>
    match hexVal a, hexVal b, hexVal c, hexVal d with
    | some x, some y, some z, some w =>
      (parseStr r).map (fun p =>
        (Char.ofNat (((x * 16 + y) * 16 + z) * 16 + w) :: p.1, p.2))
    | _, _, _, _ => none
  | '\\' :: _ => none
  | c :: rest =>
    if c.toNat < 0x20 then none
    else (parseStr rest).map (fun p => (c :: p.1, p.2))

/-- Digits to a natural number. -/
def digitsToNat (ds : List Char) : Nat :=
  ds.foldl (fun a c => a * 10 + (c.toNat - 48)) 0

/-- Parse an optional exponent suffix onto an already-float value. -/
def parseExpTail (q : Rat) (cs : List Char) : Option (PyVal × List Char) :=
  let (eneg, cs1) :=
    match cs with
    | '-' :: r => (true, r)
    | '+' :: r => (false, r)
    | _ => (false, cs)
  let es := cs1.takeWhile Char.isDigit
  if es.isEmpty then none
  else
    let e := digitsToNat es
    some (.float (if eneg then q / 10 ^ e else q * 10 ^ e),
      cs1.dropWhile Char.isDigit)

/-- Parse a JSON number (strict grammar: no leading zeros, a digit
required on both sides of the decimal point). Integer literals decode
to `int`, anything with a fraction or exponent to `float`. -/
def parseNum (cs : List Char) : Option (PyVal × List Char) :=
  let (neg, cs1) :=
    match cs with
    | '-' :: r => (true, r)
    | _ => (false, cs)
  let ds := cs1.takeWhile Char.isDigit
  let cs2 := cs1.dropWhile Char.isDigit
  if ds.isEmpty then none
  else if ds.length > 1 && ds.headD '0' = '0' then none
  else
    let sgn : Rat := if neg then -1 else 1
    match cs2 with
    | '.' :: r =>
      let fs := r.takeWhile Char.isDigit
      let r2 := r.dropWhile Char.isDigit
      if fs.isEmpty then none
      else
        let q : Rat :=
          sgn * ((digitsToNat ds : Rat) +
            (digitsToNat fs : Rat) / (10 ^ fs.length : Rat))
        match r2 with
        | 'e' :: r3 => parseExpTail q r3
        | 'E' :: r3 => parseExpTail q r3
        | _ => some (.float q, r2)
    | 'e' :: r3 => parseExpTail (sgn * (digitsToNat ds : Rat)) r3
    | 'E' :: r3 => parseExpTail (sgn * (digitsToNat ds : Rat)) r3
    | _ =>
      let n : Int := (digitsToNat ds : Int)
      some (.int (if neg then -n else n), cs2)

mutual

/-- Fueled parser for one JSON value; consumes leading whitespace. -/
def parseVal : Nat → List Char → Option (PyVal × List Char)
  | 0, _ => none
  | fuel + 1, cs =>
    match skipWs cs with
    | 'n' :: 'u' :: 'l' :: 'l' :: r => some (.vnone, r)
    | 't' :: 'r' :: 'u' :: 'e' :: r => some (.bool true, r)
    | 'f' :: 'a' :: 'l' :: 's' :: 'e' :: r => some (.bool false, r)
    | '"' :: r => (parseStr r).map (fun p => (.str (String.mk p.1), p.2))
    | '[' :: r =>
      (match skipWs r with
       | ']' :: r2 => some (.list .nil, r2)
       | cs1 =>
         match parseItems fuel cs1 with
         | some (xs, r2) => some (.list xs, r2)
         | none => none)
    | '\x7b' :: r =>
      (match skipWs r with
       | '\x7d' :: r2 => some (.dict .nil, r2)
       | cs1 =>
         match parseMembers fuel cs1 with
         | some (xs, r2) => some (.dict xs, r2)
         | none => none)
    | cs1 => parseNum cs1

/-- Fueled parser for one-or-more array items up to the closing
bracket. -/
def parseItems : Nat → List Char → Option (PyList × List Char)
  | 0, _ => none
  | fuel + 1, cs =>
    match parseVal fuel cs with
    | none => none
    | some (v, r) =>
      match skipWs r with
      | ',' :: r2 =>
        (match parseItems fuel r2 with
         | some (xs, r3) => some (.cons v xs, r3)
         | none => none)
      | ']' :: r2 => some (.cons v .nil, r2)
      | _ => none

/-- Fueled parser for one-or-more object members up to the closing
brace. -/
def parseMembers : Nat → List Char → Option (PyDict × List Char)
  | 0, _ => none
  | fuel + 1, cs =>
    match skipWs cs with
    | '"' :: r =>
      (match parseStr r with
       | none => none
       | some (kcs, r1) =>
         match skipWs r1 with
         | ':' :: r2 =>
           (match parseVal fuel r2 with
            | none => none
            | some (v, r3) =>
              match skipWs r3 with
              | ',' :: r4 =>
                (match parseMembers fuel r4 with
                 | some (xs, r5) => some (.cons (String.mk kcs) v xs, r5)
                 | none => none)
              | '\x7d' :: r4 => some (.cons (String.mk kcs) v .nil, r4)
              | _ => none)
         | _ => none)
    | _ => none

end

/-- Model of `json.loads(s)`: parse one JSON document, requiring the whole input
to be consumed; `none` models `JSONDecodeError`. -/
def jsonLoads (s : String) : Option PyVal :=
  match parseVal (2 * s.data.length + 2) s.data with
  | some (v, rest) => if skipWs rest = [] then some v else none
  | none => none

/-! ### The cache backend -/

/-- Modelled from the spec: the repository's Redis client wrapper
(`..database.redis_client`, not among the provided sources). Per the
spec it is a keyed store of UTF-8 text values with TTL support that may
report itself unavailable (`is_connected` plus an internal `_redis`
handle that may be absent). The `fail*` flags inject an exception into
the corresponding backend operation, standing for the backend errors
the spec says each caller must catch. TTL bookkeeping and expiry are
outside the model. -/
structure Redis where
  connected : Bool
  hasRedis : Bool
  store : List (String × String)
  failGet : Bool
  failSetex : Bool
  failDelete : Bool
  failKeys : Bool
  deriving DecidableEq, Repr

/-- The text stored under a key, if any. -/
def Redis.lookup (r : Redis) (k : String) : Option String :=
  (r.store.find? (fun e => e.1 == k)).map (fun e => e.2)

/-- Modelled from the spec: `redis_client.get` — stored text or
absence; an injected failure models a backend exception. -/
def Redis.rget (r : Redis) (k : String) : Except Unit (Option String) :=
  if r.failGet then .error () else .ok (r.lookup k)

/-- Modelled from the spec: `redis_client.setex` — store text under a
key with a TTL, reporting success. -/
def Redis.rsetex (r : Redis) (k : String) (_ttl : Nat) (v : String) :
    Except Unit (Bool × Redis) :=
  if r.failSetex then .error ()
  else .ok (true, { r with store := (k, v) :: r.store.filter (fun e => e.1 != k) })

/-- Modelled from the spec: `redis_client.delete(*keys)` — remove the
given keys, returning how many distinct ones existed. -/
def Redis.rdel (r : Redis) (ks : List String) : Except Unit (Nat × Redis) :=
  if r.failDelete then .error ()
  else
    .ok ((ks.dedup.filter (fun k => r.store.any (fun e => e.1 == k))).length,
      { r with store := r.store.filter (fun e => !(ks.contains e.1)) })

/-- Character-list prefix test. -/
def listIsPre : List Char → List Char → Bool
  | [], _ => true
  | _ :: _, [] => false
  | a :: as, b :: bs => a == b && listIsPre as bs

/-- Glob match as used by the service: the only pattern in play is
`review_analysis:*`, a literal prefix followed by a trailing star. -/
def patMatch (pat k : String) : Bool :=
  if pat.data.getLast? == some '*' then listIsPre pat.data.dropLast k.data
  else pat == k

/-- Modelled from the spec: `redis_client.keys(pattern)` — the distinct
stored keys matching the pattern. -/
def Redis.rkeys (r : Redis) (pat : String) : Except Unit (List String) :=
  if r.failKeys then .error ()
  else .ok ((r.store.map Prod.fst).dedup.filter (patMatch pat))

/-! ### The service: cache read and write -/

/-- Source method `ReviewAnalysisService._get_from_cache` (leading underscore
dropped): `None` when unavailable, absent, or on a backend error;
otherwise the JSON-decoded value, falling back to the raw text when
decoding fails. -/
def get_from_cache (r : Redis) (key : String) : PyVal :=
  if r.connected && r.hasRedis then
    match r.rget key with
    | .error _ => .vnone
    | .ok none => .vnone
    | .ok (some value) =>
      match jsonLoads value with
      | some v => v
      | none => .str value
  else .vnone

/-- The wire text for a non-structured value passed through to the
store as-is by the source (`redis_value = value`): text is stored
verbatim, numbers as their decimal text; `None`, booleans and opaque
objects are rejected by the store (modelling the client library's
`DataError`), which surfaces as the exception path of
`set_to_cache`. -/
def scalarText : PyVal → Option String
  | .str s => some s
  | .int n => some (toString n)
  | .float q => some (ratRepr q)
  | _ => none

/-- Whether a value is a mapping or a sequence
(`isinstance(value, (dict, list))`). -/
def isStructured : PyVal → Bool
  | .dict _ => true
  | .list _ => true
  | _ => false

/-- The wire text produced in `_set_to_cache` before the `setex` call:
`json.dumps(value, ensure_ascii=False)` for mappings and sequences,
the value itself otherwise; `none` is the exception path (the dump
raised, or the store rejected the raw value). -/
def serializeValue (value : PyVal) : Option String :=
  match value with
  | .dict _ => jsonDumps value
  | .list _ => jsonDumps value
  | _ => scalarText value

/-- Source method `ReviewAnalysisService._set_to_cache` (leading underscore dropped):
serialize mappings and sequences with `json.dumps`, pass other values
through, and `setex` with the TTL; every failure (unavailable backend,
unserializable value, backend exception) yields `False` and leaves the
store unchanged. -/
def set_to_cache (r : Redis) (key : String) (value : PyVal) (ttl : Nat) :
    Bool × Redis :=
  if r.connected && r.hasRedis then
    match serializeValue value with
    | none => (false, r)
    | some redis_value =>
      match r.rsetex key ttl redis_value with
      | .error _ => (false, r)
      | .ok (b, r2) => (b, r2)
  else (false, r)

/-! ### The service: pipeline and orchestration -/

/-- The opaque external collaborators: the record store and the two
transform sub-stages. Each may fail, modelling a raised exception. -/
structure Pipeline where
  get_reviews_by_company : String → Except Unit (List PyVal)
  preprocess_reviews : List PyVal → Except Unit PyVal
  analyze_reviews_with_keywords : PyVal → Except Unit PyVal

/-- Source method `ReviewAnalysisService.get_reviews`: read-through passthrough to
the record store. -/
def get_reviews (p : Pipeline) (name : String) : Except Unit (List PyVal) :=
  p.get_reviews_by_company name

/-- How many times each pipeline stage was invoked during one call. -/
structure Counts where
  fetch : Nat
  preprocess : Nat
  analyze : Nat
  deriving DecidableEq, Repr

/-- Source method `ReviewAnalysisService._perform_analysis` (leading underscore
dropped): fetch the records, preprocess them, analyze the result; the
first failure aborts the rest. The call counts instrument which stages
ran. -/
def perform_analysis (p : Pipeline) (name : String) :
    Except Unit PyVal × Counts :=
  match get_reviews p name with
  | .error e => (.error e, ⟨1, 0, 0⟩)
  | .ok reviews =>
    match p.preprocess_reviews reviews with
    | .error e => (.error e, ⟨1, 1, 0⟩)
    | .ok df =>
      match p.analyze_reviews_with_keywords df with
      | .error e => (.error e, ⟨1, 1, 1⟩)
      | .ok res => (.ok res, ⟨1, 1, 1⟩)

/-- Source method `ReviewAnalysisService._get_default_response` (leading underscore
dropped): the structural Default Result, with a fabricated empty-frame
object in the auxiliary field. -/
def get_default_response : PyVal :=
  .dict (.cons "scored_df"
    (.pyobj "EmptyDataFrame"
      (.cons "shape" (.list (.cons (.int 0) (.cons (.int 0) .nil)))
        (.cons "empty" (.bool true) .nil)))
    (.cons "pros"
      (.dict (.cons "avg_score" (.float 0)
        (.cons "keywords" (.list .nil)
          (.cons "sample_reviews" (.list .nil) .nil))))
      (.cons "cons"
        (.dict (.cons "avg_score" (.float 0)
          (.cons "keywords" (.list .nil)
            (.cons "sample_reviews" (.list .nil) .nil))))
        .nil)))

/-- The observable outcome of one `analysis_review` call: the returned
value, the cache state afterwards, and the pipeline-stage call
counts. -/
structure AROut where
  result : PyVal
  redis : Redis
  counts : Counts
  deriving DecidableEq, Repr

/-- Source method `ReviewAnalysisService.analysis_review`: the cache-aside
orchestrator. A truthy cached value is returned as-is without touching
the pipeline; otherwise the pipeline runs, its result is written to the
cache (outcome ignored) and returned; a pipeline exception yields the
default response with no cache write. -/
def analysis_review (p : Pipeline) (r : Redis) (ttl : Nat) (name : String) :
    AROut :=
  let cache_key := get_cache_key name
  let cached_result := get_from_cache r cache_key
  if cached_result.truthy then ⟨cached_result, r, ⟨0, 0, 0⟩⟩
  else
    match perform_analysis p name with
    | (.error _, c) => ⟨get_default_response, r, c⟩
    | (.ok res, c) =>
      let s := set_to_cache r cache_key res ttl
      ⟨res, s.2, c⟩

/-- Python truthiness of the optional argument in
`if company_name:` — an omitted argument and an empty string are both
falsy. -/
def givenName : Option String → Bool
  | none => false
  | some s => s != ""

/-- Source method `ReviewAnalysisService.clear_analysis_cache`: with a truthy company
name delete that company's derived key; otherwise delete every key
matching `review_analysis:*`; any backend exception yields 0. -/
def clear_analysis_cache (r : Redis) (company_name : Option String) :
    Nat × Redis :=
  if givenName company_name then
    let cache_key := get_cache_key (company_name.getD "")
    if r.connected && r.hasRedis then
      match r.rdel [cache_key] with
      | .error _ => (0, r)
      | .ok (n, r2) => (n, r2)
    else (0, r)
  else
    if r.connected && r.hasRedis then
      match r.rkeys "review_analysis:*" with
      | .error _ => (0, r)
      | .ok ks =>
        if ks.isEmpty then (0, r)
        else
          match r.rdel ks with
          | .error _ => (0, r)
          | .ok (n, r2) => (n, r2)
    else (0, r)

/-! ### Result shape -/

/-- Whether an optional value is a section of an analysis result: a
mapping with an aggregate score, a keyword sequence and a sample-review
sequence. -/
def isSection : Option PyVal → Bool
  | some (.dict d) =>
    (match d.lookup "avg_score" with
     | some (.float _) => true
     | some (.int _) => true
     | _ => false) &&
    (match d.lookup "keywords" with
     | some (.list _) => true
     | _ => false) &&
    (match d.lookup "sample_reviews" with
     | some (.list _) => true
     | _ => false)
  | _ => false

/-- Whether a value has the `AnalysisResult` shape: a mapping with at
least `pros` and `cons` sections of the form above. -/
def isWellShaped (v : PyVal) : Bool :=
  match v with
  | .dict d => isSection (d.lookup "pros") && isSection (d.lookup "cons")
  | _ => false

/-! ### Helper lemmas -/

/-- Every character produced by `hexChar` is a lowercase hex digit. -/
theorem hexChar_mem_hexDigits (n : Nat) :
    hexChar n ∈ "0123456789abcdef".data := by
  have h : ∀ m, m < 16 →
      ("0123456789abcdef".data.getD m '0') ∈ "0123456789abcdef".data := by
    decide
  have hlt : n % 16 < 16 := Nat.mod_lt _ (by norm_num)
  exact h _ hlt

/-- Two hex characters per byte. -/
theorem flatMap_hexByte_length (bs : List Nat) :
    (bs.flatMap hexByte).length = 2 * bs.length := by
  induction bs with
  | nil => rfl
  | cons b tl ih =>
    simp only [List.flatMap_cons, List.length_append, hexByte,
      List.length_cons, List.length_nil, ih]
    omega

/-- Every character of the hex rendering is a lowercase hex digit. -/
theorem flatMap_hexByte_chars (bs : List Nat) :
    ∀ c ∈ bs.flatMap hexByte, c ∈ "0123456789abcdef".data := by
  induction bs with
  | nil => simp
  | cons b tl ih =>
    intro c hc
    simp only [List.flatMap_cons, List.mem_append] at hc
    rcases hc with hc | hc
    · simp only [hexByte, List.mem_cons, List.not_mem_nil, or_false] at hc
      rcases hc with hc | hc <;> exact hc ▸ hexChar_mem_hexDigits _
    · exact ih c hc

/-- The hex rendering of a byte list has two characters per byte. -/
theorem hexDigest_length (bs : List Nat) :
    (hexDigest bs).length = 2 * bs.length :=
  flatMap_hexByte_length bs

/-- Every character of a hex rendering is a lowercase hex digit. -/
theorem hexDigest_chars (bs : List Nat) :
    ∀ c ∈ (hexDigest bs).data, c ∈ "0123456789abcdef".data := by
  intro c hc
  exact flatMap_hexByte_chars bs c hc

/-- The MD5 digest always has 16 bytes. -/
theorem digest_length (msg : List Nat) : (MD5.digest msg).length = 16 := by
  simp [MD5.digest, MD5.wordBytes]

/-- The hex digest of any identifier has exactly 32 characters. -/
theorem md5Hex_length (s : String) : (md5Hex s).length = 32 := by
  simp [md5Hex, hexDigest_length, digest_length]

/-- A nested section field of a result mapping. -/
def sectionField (v : PyVal) (sec fld : String) : Option PyVal :=
  (v.getKey sec).bind (fun s => s.getKey fld)

/-- A pipeline whose every stage raises (concrete failure oracle). -/
def pipeFail : Pipeline :=
  ⟨fun _ => .error (), fun _ => .error (), fun _ => .error ()⟩

/-- A pipeline that succeeds end to end with the given analysis
result. -/
def pipeOk (res : PyVal) : Pipeline :=
  ⟨fun _ => .ok [], fun _ => .ok .vnone, fun _ => .ok res⟩

/-- A connected, failure-free backend holding the given entries. -/
def mkRedis (st : List (String × String)) : Redis :=
  ⟨true, true, st, false, false, false, false⟩

/-! ### Claims -/

/-- C4: for every identifier string (including non-ASCII),
`get_cache_key` is deterministic and pure — the same identifier always
yields the same key across repeated calls — and the key it returns has
exactly the form `review_analysis:` followed by a
32-hexadecimal-character digest of the UTF-8-encoded identifier; as a
total function it never raises. -/
theorem claim_C4_cache_key_deterministic_form (a : String) :
    get_cache_key a = get_cache_key a ∧
    get_cache_key a =
      "review_analysis:" ++ hexDigest (MD5.digest (utf8Encode a)) ∧
    (hexDigest (MD5.digest (utf8Encode a))).length = 32 ∧
    ∀ c ∈ (hexDigest (MD5.digest (utf8Encode a))).data,
      c ∈ "0123456789abcdef".data := by
  refine ⟨rfl, rfl, ?_, hexDigest_chars _⟩
  simp [hexDigest_length, digest_length]

/-- C1: if the cache read returns a value that deserializes to a
non-empty mapping, `analysis_review` returns that deserialized mapping
immediately, leaves the cache untouched, and invokes neither the record
fetch (`get_reviews`) nor either transform stage. -/
theorem claim_C1_cache_hit_short_circuits
    (p : Pipeline) (r : Redis) (ttl : Nat) (name v : String) (d : PyDict)
    (hconn : r.connected = true) (hhr : r.hasRedis = true)
    (hfg : r.failGet = false)
    (hst : r.lookup (get_cache_key name) = some v)
    (hjson : jsonLoads v = some (.dict d)) (hne : d ≠ .nil) :
    (analysis_review p r ttl name).result = .dict d ∧
    (analysis_review p r ttl name).counts = ⟨0, 0, 0⟩ ∧
    (analysis_review p r ttl name).redis = r := by
  have hcached : get_from_cache r (get_cache_key name) = .dict d := by
    simp [get_from_cache, Redis.rget, hconn, hhr, hfg, hst, hjson]
  have htr : (PyVal.truthy (.dict d)) = true := by
    cases d with
    | nil => exact absurd rfl hne
    | cons k w tl => rfl
  simp [analysis_review, hcached, htr]

set_option maxRecDepth 40000 in
/-- C1 witness: a concrete cache hit for identifier `acme` with cached
text decoding to the non-empty mapping with entry `a`-to-1. -/
theorem claim_C1_witness :
    (mkRedis [(get_cache_key "acme", "\x7b\"a\": 1\x7d")]).lookup
        (get_cache_key "acme") = some "\x7b\"a\": 1\x7d" ∧
    jsonLoads "\x7b\"a\": 1\x7d" = some (.dict (.cons "a" (.int 1) .nil)) ∧
    (analysis_review pipeFail
        (mkRedis [(get_cache_key "acme", "\x7b\"a\": 1\x7d")]) 60
        "acme").result = .dict (.cons "a" (.int 1) .nil) ∧
    (analysis_review pipeFail
        (mkRedis [(get_cache_key "acme", "\x7b\"a\": 1\x7d")]) 60
        "acme").counts = ⟨0, 0, 0⟩ := by
  have h := claim_C1_cache_hit_short_circuits pipeFail
    (mkRedis [(get_cache_key "acme", "\x7b\"a\": 1\x7d")]) 60 "acme"
    "\x7b\"a\": 1\x7d" (.cons "a" (.int 1) .nil) rfl rfl rfl
    (by decide) (by decide) (by decide)
  exact ⟨by decide, by decide, h.1, h.2.1⟩

/-- A concrete, JSON-serializable, well-shaped analysis result used as
a pipeline oracle output in witnesses. -/
def okRes : PyVal :=
  .dict (.cons "pros"
    (.dict (.cons "avg_score" (.float (3 / 2))
      (.cons "keywords" (.list (.cons (.str "좋다") .nil))
        (.cons "sample_reviews" (.list .nil) .nil))))
    (.cons "cons"
      (.dict (.cons "avg_score" (.float 0)
        (.cons "keywords" (.list .nil)
          (.cons "sample_reviews" (.list .nil) .nil))))
      .nil))

/-- A successful `perform_analysis` outcome is an output of the final
analyzer stage. -/
theorem perform_analysis_ok (p : Pipeline) (name : String) (v : PyVal)
    (c : Counts) (h : perform_analysis p name = (.ok v, c)) :
    ∃ df, p.analyze_reviews_with_keywords df = .ok v := by
  unfold perform_analysis get_reviews at h
  split at h
  · exact absurd h (by simp)
  · split at h
    · exact absurd h (by simp)
    · split at h
      · exact absurd h (by simp)
      · rename_i df ha
        simp only [Prod.mk.injEq, Except.ok.injEq] at h
        obtain ⟨rfl, -⟩ := h
        exact ⟨_, ha⟩

/-- C2: if the pipeline fails at any stage, `analysis_review` returns
the default response — pros and cons sections with score `0.0`, empty
keyword and sample sequences, and the explicitly-empty frame object in
the auxiliary field — no exception propagates (the embedding is a total
function), and the cache is left exactly as it was, so nothing is
written for the identifier. -/
theorem claim_C2_pipeline_failure_returns_default
    (p : Pipeline) (r : Redis) (ttl : Nat) (name : String)
    (hmiss : (get_from_cache r (get_cache_key name)).truthy = false)
    (hfail : (perform_analysis p name).1 = .error ()) :
    (analysis_review p r ttl name).result = get_default_response ∧
    (analysis_review p r ttl name).redis = r ∧
    sectionField get_default_response "pros" "avg_score" =
      some (.float 0) ∧
    sectionField get_default_response "pros" "keywords" =
      some (.list .nil) ∧
    sectionField get_default_response "pros" "sample_reviews" =
      some (.list .nil) ∧
    sectionField get_default_response "cons" "avg_score" =
      some (.float 0) ∧
    sectionField get_default_response "cons" "keywords" =
      some (.list .nil) ∧
    sectionField get_default_response "cons" "sample_reviews" =
      some (.list .nil) ∧
    get_default_response.getKey "scored_df" =
      some (.pyobj "EmptyDataFrame"
        (.cons "shape" (.list (.cons (.int 0) (.cons (.int 0) .nil)))
          (.cons "empty" (.bool true) .nil))) := by
  refine ⟨?_, ?_, by decide, by decide, by decide, by decide, by decide,
    by decide, by decide⟩ <;>
  · rcases h : perform_analysis p name with ⟨res, c⟩
    rw [h] at hfail
    simp only at hfail
    subst hfail
    simp [analysis_review, hmiss, h]

set_option maxRecDepth 40000 in
/-- C2 witness: a failing record fetch for identifier `acme` on an
empty cache yields the default response and an unchanged store. -/
theorem claim_C2_witness :
    (analysis_review pipeFail (mkRedis []) 60 "acme").result =
      get_default_response ∧
    (analysis_review pipeFail (mkRedis []) 60 "acme").redis = mkRedis [] := by
  have h := claim_C2_pipeline_failure_returns_default pipeFail (mkRedis [])
    60 "acme" (by decide) rfl
  exact ⟨h.1, h.2.1⟩

set_option maxRecDepth 40000 in
/-- C3 counterexample: with the cached text `hello` (present but not
valid JSON) under the derived key for `acme`, `analysis_review` returns
the bare string `hello` to the caller — a non-mapping without `pros` or
`cons` sections — so a cached plain string does reach the caller. -/
theorem claim_C3_counterexample :
    (analysis_review pipeFail
      (mkRedis [(get_cache_key "acme", "hello")]) 60 "acme").result =
      .str "hello" ∧
    isWellShaped (.str "hello") = false := by
  constructor
  · decide
  · decide

/-- C3 (amended): the shape invariant holds for the two paths the
orchestrator itself produces — pipeline success (provided the analyzer
stage honours its contract of returning a well-shaped result) and the
failure fallback; a cache hit, by contrast, returns whatever truthy
value the cached text deserializes to, which may be a plain string or
other non-mapping. -/
theorem claim_C3_amended_shape_on_non_hit_paths
    (p : Pipeline) (r : Redis) (ttl : Nat) (name : String)
    (hshape : ∀ df res, p.analyze_reviews_with_keywords df = .ok res →
      isWellShaped res = true)
    (hmiss : (get_from_cache r (get_cache_key name)).truthy = false) :
    isWellShaped (analysis_review p r ttl name).result = true := by
  rcases h : perform_analysis p name with ⟨res, c⟩
  cases res with
  | error e =>
    cases e
    simp only [analysis_review, hmiss, Bool.false_eq_true, if_false, h]
    decide
  | ok v =>
    simp only [analysis_review, hmiss, Bool.false_eq_true, if_false, h]
    obtain ⟨df, ha⟩ := perform_analysis_ok p name v c h
    exact hshape df v ha

set_option maxRecDepth 40000 in
/-- C3 witness (for the amended claim): a pipeline returning the
concrete well-shaped result on an empty cache yields a well-shaped
return value. -/
theorem claim_C3_witness :
    isWellShaped (analysis_review (pipeOk okRes) (mkRedis []) 60
      "acme").result = true := by
  apply claim_C3_amended_shape_on_non_hit_paths
  · intro df res h
    cases h
    decide
  · decide

/-- C5: on the pipeline-success path `analysis_review` returns the
pipeline's result with no constraint on the cache write's outcome (the
hypotheses say nothing about the write flags, so the result is the same
value whether the write succeeds or fails), and `set_to_cache` never
raises past its boundary: it is total, and every backend unavailability
or internal error yields `False` with the store unchanged. -/
theorem claim_C5_result_regardless_of_cache_write
    (p : Pipeline) (r : Redis) (ttl : Nat) (name : String)
    (res : PyVal) (c : Counts)
    (hmiss : (get_from_cache r (get_cache_key name)).truthy = false)
    (hok : perform_analysis p name = (.ok res, c)) :
    (analysis_review p r ttl name).result = res ∧
    ∀ (r2 : Redis) (k : String) (v : PyVal) (t : Nat),
      (r2.connected = false ∨ r2.hasRedis = false ∨ r2.failSetex = true ∨
        serializeValue v = none) →
      set_to_cache r2 k v t = (false, r2) := by
  constructor
  · simp [analysis_review, hmiss, hok]
  · intro r2 k v t hbad
    rcases hbad with h | h | h | h
    · simp [set_to_cache, h]
    · simp [set_to_cache, h]
    · by_cases hc : (r2.connected && r2.hasRedis) = true
      · cases hs : serializeValue v with
        | none => simp [set_to_cache, hc, hs]
        | some s => simp [set_to_cache, hc, hs, Redis.rsetex, h]
      · simp [set_to_cache, hc]
    · by_cases hc : (r2.connected && r2.hasRedis) = true
      · simp [set_to_cache, hc, h]
      · simp [set_to_cache, hc]

/-- A connected backend whose `setex` raises. -/
def rNoSet : Redis := ⟨true, true, [], false, true, false, false⟩

set_option maxRecDepth 40000 in
/-- C5 witness: with a backend whose write stage raises, the pipeline
result is still returned and the write reports `False`. -/
theorem claim_C5_witness :
    (analysis_review (pipeOk okRes) rNoSet 60 "acme").result = okRes ∧
    set_to_cache rNoSet "k" okRes 60 = (false, rNoSet) := by
  have h := claim_C5_result_regardless_of_cache_write (pipeOk okRes) rNoSet
    60 "acme" okRes ⟨1, 1, 1⟩ (by decide) rfl
  exact ⟨h.1, h.2 rNoSet "k" okRes 60 (Or.inr (Or.inr (Or.inl rfl)))⟩

/-- C6: with the backend reporting not connected, every cache operation
is a no-op returning its neutral sentinel — the read yields absence,
the write yields `False`, both invalidation forms yield 0 — none of
them raises (all are total), the store is unchanged in each case, and
`analysis_review` still returns the pipeline-computed result on every
call. -/
theorem claim_C6_backend_unavailable_noop
    (p : Pipeline) (r : Redis) (ttl : Nat) (k nm name : String)
    (v res : PyVal) (c : Counts)
    (hconn : r.connected = false) :
    get_from_cache r k = .vnone ∧
    set_to_cache r k v ttl = (false, r) ∧
    clear_analysis_cache r (some nm) = (0, r) ∧
    clear_analysis_cache r none = (0, r) ∧
    (perform_analysis p name = (.ok res, c) →
      (analysis_review p r ttl name).result = res ∧
      (analysis_review p r ttl name).redis = r) := by
  refine ⟨?_, ?_, ?_, ?_, ?_⟩
  · simp [get_from_cache, hconn]
  · simp [set_to_cache, hconn]
  · by_cases hg : givenName (some nm) = true <;>
      simp [clear_analysis_cache, hg, hconn]
  · simp [clear_analysis_cache, givenName, hconn]
  · intro hok
    constructor <;>
      simp [analysis_review, get_from_cache, PyVal.truthy, hconn, hok,
        set_to_cache]

/-- A disconnected backend that still holds an entry. -/
def rDown : Redis := ⟨false, true, [("review_analysis:a", "1")],
  false, false, false, false⟩

set_option maxRecDepth 40000 in
/-- C6 witness: all operations at a concrete disconnected backend. -/
theorem claim_C6_witness :
    get_from_cache rDown (get_cache_key "acme") = .vnone ∧
    set_to_cache rDown "k" okRes 60 = (false, rDown) ∧
    clear_analysis_cache rDown (some "acme") = (0, rDown) ∧
    clear_analysis_cache rDown none = (0, rDown) ∧
    (analysis_review (pipeOk okRes) rDown 60 "acme").result = okRes := by
  have h := claim_C6_backend_unavailable_noop (pipeOk okRes) rDown 60
    (get_cache_key "acme") "acme" "acme" okRes okRes ⟨1, 1, 1⟩ rfl
  exact ⟨h.1, h.2.1, h.2.2.1, h.2.2.2.1, (h.2.2.2.2 rfl).1⟩

/-- On a cache miss the call counts are exactly those of
`perform_analysis`. -/
theorem analysis_review_counts (p : Pipeline) (r : Redis) (ttl : Nat)
    (name : String)
    (hmiss : (get_from_cache r (get_cache_key name)).truthy = false) :
    (analysis_review p r ttl name).counts = (perform_analysis p name).2 := by
  rcases h : perform_analysis p name with ⟨fst, c⟩
  cases fst <;> simp [analysis_review, hmiss, h]

/-- The record fetch runs exactly once per pipeline invocation. -/
theorem perform_analysis_counts_fetch (p : Pipeline) (name : String) :
    (perform_analysis p name).2.fetch = 1 := by
  unfold perform_analysis get_reviews
  split
  · rfl
  · split
    · rfl
    · split <;> rfl

/-- When the fetch succeeds, the preprocess stage runs exactly once. -/
theorem perform_analysis_counts_preprocess (p : Pipeline) (name : String)
    (recs : List PyVal) (hg : p.get_reviews_by_company name = .ok recs) :
    (perform_analysis p name).2.preprocess = 1 := by
  simp only [perform_analysis, get_reviews, hg]
  split
  · rfl
  · split <;> rfl

/-- When fetch and preprocess succeed, the analyzer runs exactly
once. -/
theorem perform_analysis_counts_analyze (p : Pipeline) (name : String)
    (recs : List PyVal) (df : PyVal)
    (hg : p.get_reviews_by_company name = .ok recs)
    (hp : p.preprocess_reviews recs = .ok df) :
    (perform_analysis p name).2.analyze = 1 := by
  simp only [perform_analysis, get_reviews, hg, hp]
  split <;> rfl

/-- A fully successful pipeline run. -/
theorem perform_analysis_full_ok (p : Pipeline) (name : String)
    (recs : List PyVal) (df res : PyVal)
    (hg : p.get_reviews_by_company name = .ok recs)
    (hp : p.preprocess_reviews recs = .ok df)
    (ha : p.analyze_reviews_with_keywords df = .ok res) :
    perform_analysis p name = (.ok res, ⟨1, 1, 1⟩) := by
  simp only [perform_analysis, get_reviews, hg, hp, ha]

/-- C8: a falsy cached value (absence, or a value deserializing to an
empty mapping, for example) is treated exactly as a cache miss: the
record fetch runs, then each transform stage as long as the previous
one succeeded, and on full success the pipeline's result — not the
falsy cached value — is returned. -/
theorem claim_C8_falsy_cache_treated_as_miss
    (p : Pipeline) (r : Redis) (ttl : Nat) (name : String)
    (hfalsy : (get_from_cache r (get_cache_key name)).truthy = false) :
    (analysis_review p r ttl name).counts.fetch = 1 ∧
    (∀ recs, p.get_reviews_by_company name = .ok recs →
      (analysis_review p r ttl name).counts.preprocess = 1) ∧
    (∀ recs df, p.get_reviews_by_company name = .ok recs →
      p.preprocess_reviews recs = .ok df →
      (analysis_review p r ttl name).counts.analyze = 1) ∧
    (∀ recs df res, p.get_reviews_by_company name = .ok recs →
      p.preprocess_reviews recs = .ok df →
      p.analyze_reviews_with_keywords df = .ok res →
      (analysis_review p r ttl name).result = res) := by
  refine ⟨?_, ?_, ?_, ?_⟩
  · rw [analysis_review_counts p r ttl name hfalsy]
    exact perform_analysis_counts_fetch p name
  · intro recs hg
    rw [analysis_review_counts p r ttl name hfalsy]
    exact perform_analysis_counts_preprocess p name recs hg
  · intro recs df hg hp
    rw [analysis_review_counts p r ttl name hfalsy]
    exact perform_analysis_counts_analyze p name recs df hg hp
  · intro recs df res hg hp ha
    have h := perform_analysis_full_ok p name recs df res hg hp ha
    simp [analysis_review, hfalsy, h]

set_option maxRecDepth 40000 in
/-- C8 witness: a cached `\x7b\x7d` (the empty mapping, falsy) under
the derived key for `acme` is ignored; all three stages run once and
the pipeline result is returned. -/
theorem claim_C8_witness :
    (analysis_review (pipeOk okRes)
      (mkRedis [(get_cache_key "acme", "\x7b\x7d")]) 60
      "acme").counts.fetch = 1 ∧
    (analysis_review (pipeOk okRes)
      (mkRedis [(get_cache_key "acme", "\x7b\x7d")]) 60
      "acme").counts.preprocess = 1 ∧
    (analysis_review (pipeOk okRes)
      (mkRedis [(get_cache_key "acme", "\x7b\x7d")]) 60
      "acme").counts.analyze = 1 ∧
    (analysis_review (pipeOk okRes)
      (mkRedis [(get_cache_key "acme", "\x7b\x7d")]) 60
      "acme").result = okRes := by
  have h := claim_C8_falsy_cache_treated_as_miss (pipeOk okRes)
    (mkRedis [(get_cache_key "acme", "\x7b\x7d")]) 60 "acme" (by decide)
  exact ⟨h.1, h.2.1 [] rfl, h.2.2.1 [] .vnone rfl rfl,
    h.2.2.2 [] .vnone okRes rfl rfl rfl⟩

/-- C10: a structured result with a member `json.dumps` cannot
serialize (such as the frame object under `scored_df` in a real
analysis result) makes `set_to_cache` catch the serialization error and
return `False` with nothing written, while `analysis_review` still
returns that result; since nothing was cached and the state is
unchanged, the next call for the identifier runs the fetch stage
again. -/
theorem claim_C10_unserializable_result_never_cached
    (p : Pipeline) (r : Redis) (ttl : Nat) (name : String)
    (res : PyVal) (c : Counts)
    (hstruct : isStructured res = true) (hbad : jsonDumps res = none)
    (hmiss : (get_from_cache r (get_cache_key name)).truthy = false)
    (hok : perform_analysis p name = (.ok res, c)) :
    (∀ (r2 : Redis) (k : String) (t : Nat),
      set_to_cache r2 k res t = (false, r2)) ∧
    (analysis_review p r ttl name).result = res ∧
    (analysis_review p r ttl name).redis = r ∧
    (analysis_review p (analysis_review p r ttl name).redis ttl
      name).counts.fetch = 1 := by
  have hser : serializeValue res = none := by
    cases res <;> simp_all [serializeValue, isStructured]
  have hset : ∀ (r2 : Redis) (k : String) (t : Nat),
      set_to_cache r2 k res t = (false, r2) := by
    intro r2 k t
    by_cases hc : (r2.connected && r2.hasRedis) = true
    · simp [set_to_cache, hc, hser]
    · simp [set_to_cache, hc]
  have hres : (analysis_review p r ttl name).result = res ∧
      (analysis_review p r ttl name).redis = r := by
    constructor <;> simp [analysis_review, hmiss, hok, hset]
  refine ⟨hset, hres.1, hres.2, ?_⟩
  rw [hres.2, analysis_review_counts p r ttl name hmiss]
  exact perform_analysis_counts_fetch p name

/-- A structured result holding a non-serializable frame object, like
a real analysis result's `scored_df` member. -/
def badRes : PyVal :=
  .dict (.cons "scored_df" (.pyobj "DataFrame" .nil) .nil)

set_option maxRecDepth 40000 in
/-- C10 witness: the frame-bearing result is returned but never
written, and a repeat call fetches again. -/
theorem claim_C10_witness :
    set_to_cache (mkRedis []) "k" badRes 60 = (false, mkRedis []) ∧
    (analysis_review (pipeOk badRes) (mkRedis []) 60 "acme").result =
      badRes ∧
    (analysis_review (pipeOk badRes) (mkRedis []) 60 "acme").redis =
      mkRedis [] ∧
    (analysis_review (pipeOk badRes)
      (analysis_review (pipeOk badRes) (mkRedis []) 60 "acme").redis 60
      "acme").counts.fetch = 1 := by
  have h := claim_C10_unserializable_result_never_cached (pipeOk badRes)
    (mkRedis []) 60 "acme" badRes ⟨1, 1, 1⟩ rfl (by decide) (by decide) rfl
  exact ⟨h.1 (mkRedis []) "k" 60, h.2.1, h.2.2.1, h.2.2.2⟩

/-- The distinct stored keys matching the service's namespace
pattern. -/
def matchingKeys (r : Redis) : List String :=
  (r.store.map Prod.fst).dedup.filter (patMatch "review_analysis:*")

/-- After filtering out the entries whose key is listed, a listed key
is no longer found. -/
theorem find?_filter_out (st : List (String × String)) (ks : List String)
    (k : String) (hk : ks.contains k = true) :
    (st.filter (fun e => !(ks.contains e.1))).find? (fun e => e.1 == k)
      = none := by
  induction st with
  | nil => rfl
  | cons e tl ih =>
    by_cases he : ks.contains e.1 = true
    · simp only [List.filter_cons, he, Bool.not_true, Bool.false_eq_true,
        if_false]
      exact ih
    · have he' : ks.contains e.1 = false := by
        cases h : ks.contains e.1
        · rfl
        · exact absurd h he
      have hne : (e.1 == k) = false := by
        cases h : e.1 == k
        · rfl
        · have : e.1 = k := by simpa using h
          rw [this, hk] at he'
          cases he'
      simp only [List.filter_cons, he', Bool.not_false, if_true]
      rw [List.find?_cons_of_neg _ (by simp [hne])]
      exact ih

/-- Filtering out listed keys does not change the entry found for an
unlisted key. -/
theorem find?_filter_keep (st : List (String × String)) (ks : List String)
    (k : String) (hk : ks.contains k = false) :
    (st.filter (fun e => !(ks.contains e.1))).find? (fun e => e.1 == k)
      = st.find? (fun e => e.1 == k) := by
  induction st with
  | nil => rfl
  | cons e tl ih =>
    by_cases he : ks.contains e.1 = true
    · have hne : (e.1 == k) = false := by
        cases h : e.1 == k
        · rfl
        · have : e.1 = k := by simpa using h
          rw [this, hk] at he
          cases he
      simp only [List.filter_cons, he, Bool.not_true, Bool.false_eq_true,
        if_false]
      rw [ih, List.find?_cons_of_neg _ (by simp [hne])]
    · have he' : ks.contains e.1 = false := by
        cases h : ks.contains e.1
        · rfl
        · exact absurd h he
      simp only [List.filter_cons, he', Bool.not_false, if_true]
      by_cases hek : (e.1 == k) = true
      · rw [List.find?_cons_of_pos _ (by simp [hek]),
          List.find?_cons_of_pos _ (by simp [hek])]
      · have hek' : (e.1 == k) = false := by
          cases h : e.1 == k
          · rfl
          · exact absurd h hek
        rw [List.find?_cons_of_neg _ (by simp [hek']),
          List.find?_cons_of_neg _ (by simp [hek'])]
        exact ih

/-- A present key whose text the pattern matches is among the matching
keys. -/
theorem mem_matchingKeys_of_lookup (r : Redis) (k v : String)
    (hl : r.lookup k = some v)
    (hm : patMatch "review_analysis:*" k = true) :
    k ∈ matchingKeys r := by
  have hk : k ∈ r.store.map Prod.fst := by
    unfold Redis.lookup at hl
    cases hf : r.store.find? (fun e => e.1 == k) with
    | none => rw [hf] at hl; simp at hl
    | some e =>
      have he := List.find?_some hf
      have hmem := List.mem_of_find?_eq_some hf
      have hek : e.1 = k := by simpa using he
      exact hek ▸ List.mem_map_of_mem Prod.fst hmem
  unfold matchingKeys
  rw [List.mem_filter]
  exact ⟨List.mem_dedup.mpr hk, hm⟩

/-- The matching-key list is duplicate-free. -/
theorem matchingKeys_dedup (r : Redis) :
    (matchingKeys r).dedup = matchingKeys r :=
  List.dedup_eq_self.mpr ((List.nodup_dedup _).filter _)

/-- Every matching key is present in the store. -/
theorem any_of_mem_matchingKeys (r : Redis) (k : String)
    (hk : k ∈ matchingKeys r) :
    r.store.any (fun e => e.1 == k) = true := by
  unfold matchingKeys at hk
  have hk' : k ∈ r.store.map Prod.fst :=
    List.mem_dedup.mp (List.mem_filter.mp hk).1
  obtain ⟨e, he, rfl⟩ := List.mem_map.mp hk'
  exact List.any_eq_true.mpr ⟨e, he, by simp⟩

/-- Reduction of the single-key invalidation branch on an available,
delete-healthy backend. -/
theorem clear_some_reduce (r : Redis) (name : String) (hne : name ≠ "")
    (hc : (r.connected && r.hasRedis) = true) (hd : r.failDelete = false) :
    clear_analysis_cache r (some name) =
      (([get_cache_key name].dedup.filter
          (fun k => r.store.any (fun e => e.1 == k))).length,
        { r with store := r.store.filter (fun e => !([get_cache_key name].contains e.1)) }) := by
  have hg : givenName (some name) = true := by simp [givenName, hne]
  simp [clear_analysis_cache, hg, hc, Redis.rdel, hd]

/-- The single-key invalidation returns 0 when the delete raises. -/
theorem clear_some_faildelete (r : Redis) (name : String) (hne : name ≠ "")
    (hd : r.failDelete = true) :
    clear_analysis_cache r (some name) = (0, r) := by
  have hg : givenName (some name) = true := by simp [givenName, hne]
  by_cases hc : (r.connected && r.hasRedis) = true <;>
    simp [clear_analysis_cache, hg, hc, Redis.rdel, hd]

/-- The single-key invalidation is a no-op when not connected. -/
theorem clear_some_notconn (r : Redis) (name : String) (hne : name ≠ "")
    (hconn : r.connected = false) :
    clear_analysis_cache r (some name) = (0, r) := by
  have hg : givenName (some name) = true := by simp [givenName, hne]
  simp [clear_analysis_cache, hg, hconn]

/-- Reduction of the pattern invalidation branch on an available,
healthy backend with at least one matching key. -/
theorem clear_none_reduce (r : Redis)
    (hc : (r.connected && r.hasRedis) = true) (hk : r.failKeys = false)
    (hd : r.failDelete = false)
    (hnonempty : (matchingKeys r).isEmpty = false) :
    clear_analysis_cache r none =
      (((matchingKeys r).dedup.filter
          (fun k => r.store.any (fun e => e.1 == k))).length,
        { r with store := r.store.filter (fun e => !((matchingKeys r).contains e.1)) }) := by
  have hks : Redis.rkeys r "review_analysis:*" = .ok (matchingKeys r) := by
    simp [Redis.rkeys, hk, matchingKeys]
  have hdel : Redis.rdel r (matchingKeys r) =
      .ok (((matchingKeys r).dedup.filter
          (fun k => r.store.any (fun e => e.1 == k))).length,
        { r with store := r.store.filter (fun e => !((matchingKeys r).contains e.1)) }) := by
    simp [Redis.rdel, hd]
  simp [clear_analysis_cache, givenName, hc, hks, hnonempty, hdel]

/-- The pattern invalidation is a no-op when nothing matches. -/
theorem clear_none_empty (r : Redis)
    (hc : (r.connected && r.hasRedis) = true) (hk : r.failKeys = false)
    (hempty : (matchingKeys r).isEmpty = true) :
    clear_analysis_cache r none = (0, r) := by
  have hks : Redis.rkeys r "review_analysis:*" = .ok (matchingKeys r) := by
    simp [Redis.rkeys, hk, matchingKeys]
  simp [clear_analysis_cache, givenName, hc, hks, hempty]

/-- List `contains` is false for a non-member. -/
theorem contains_false_of_not_mem (l : List String) (a : String)
    (h : a ∉ l) : l.contains a = false := by
  cases hc : l.contains a
  · rfl
  · exact absurd (List.mem_of_elem_eq_true hc) h

/-- C7 (amended): with a non-empty identifier, `clear_analysis_cache`
deletes only that identifier's derived key and returns 0 or 1; with no
identifier — or an empty-string identifier, which the code's truthiness
test treats exactly like an omitted one — it deletes every key matching
`review_analysis:*` and returns the count deleted (0 when none match or
the backend is unavailable); it is total (never raises) and every
injected backend error yields 0. -/
theorem claim_C7_amended_invalidation
    (r : Redis) (name : String) (hne : name ≠ "") :
    ((clear_analysis_cache r (some name)).1 = 0 ∨
      (clear_analysis_cache r (some name)).1 = 1) ∧
    (r.connected = true → r.hasRedis = true → r.failDelete = false →
      (clear_analysis_cache r (some name)).2.lookup (get_cache_key name)
        = none ∧
      ∀ k, k ≠ get_cache_key name →
        (clear_analysis_cache r (some name)).2.lookup k = r.lookup k) ∧
    (r.failDelete = true → clear_analysis_cache r (some name) = (0, r)) ∧
    (r.connected = false → clear_analysis_cache r (some name) = (0, r)) ∧
    (r.connected = true → r.hasRedis = true → r.failKeys = false →
      r.failDelete = false →
      (clear_analysis_cache r none).1 = (matchingKeys r).length ∧
      (∀ k, patMatch "review_analysis:*" k = true →
        (clear_analysis_cache r none).2.lookup k = none) ∧
      (∀ k, patMatch "review_analysis:*" k = false →
        (clear_analysis_cache r none).2.lookup k = r.lookup k)) ∧
    (r.connected = false → clear_analysis_cache r none = (0, r)) ∧
    ((r.failKeys = true ∨ r.failDelete = true) →
      (clear_analysis_cache r none).1 = 0) := by
  have hsing : [get_cache_key name].dedup = [get_cache_key name] :=
    List.dedup_eq_self.mpr (List.nodup_singleton _)
  refine ⟨?_, ?_, ?_, ?_, ?_, ?_, ?_⟩
  · by_cases hc : (r.connected && r.hasRedis) = true
    · by_cases hd : r.failDelete = true
      · left
        rw [clear_some_faildelete r name hne hd]
      · have hd' : r.failDelete = false := by
          cases h : r.failDelete
          · rfl
          · exact absurd h hd
        cases ha : r.store.any (fun e => e.1 == get_cache_key name) <;>
          simp [clear_some_reduce r name hne hc hd', hsing,
            List.filter_cons, ha]
    · have h0 : clear_analysis_cache r (some name) = (0, r) := by
        have hg : givenName (some name) = true := by simp [givenName, hne]
        simp [clear_analysis_cache, hg, hc]
      left
      rw [h0]
  · intro h1 h2 hd
    have hc : (r.connected && r.hasRedis) = true := by rw [h1, h2]; rfl
    rw [clear_some_reduce r name hne hc hd]
    constructor
    · simp only [Redis.lookup]
      rw [find?_filter_out _ _ _ (List.elem_eq_true_of_mem (by simp))]
      rfl
    · intro k hk
      simp only [Redis.lookup]
      rw [find?_filter_keep _ _ _
        (contains_false_of_not_mem _ _ (by simp [hk]))]
  · intro hd
    exact clear_some_faildelete r name hne hd
  · intro hconn
    exact clear_some_notconn r name hne hconn
  · intro h1 h2 hk hd
    have hc : (r.connected && r.hasRedis) = true := by rw [h1, h2]; rfl
    cases hemp : (matchingKeys r).isEmpty
    case false =>
      rw [clear_none_reduce r hc hk hd hemp]
      refine ⟨?_, ?_, ?_⟩
      · simp only []
        rw [matchingKeys_dedup, List.filter_eq_self.mpr
          (fun k hk2 => any_of_mem_matchingKeys r k hk2)]
      · intro k hm
        simp only [Redis.lookup]
        by_cases hin : (matchingKeys r).contains k = true
        · rw [find?_filter_out _ _ _ hin]
          rfl
        · have hin' : (matchingKeys r).contains k = false := by
            cases h : (matchingKeys r).contains k
            · rfl
            · exact absurd h hin
          rw [find?_filter_keep _ _ _ hin']
          cases hl : r.store.find? (fun e => e.1 == k) with
          | none => rfl
          | some e =>
            exfalso
            have hmem : k ∈ matchingKeys r :=
              mem_matchingKeys_of_lookup r k e.2
                (by simp [Redis.lookup, hl]) hm
            have h3 : (matchingKeys r).contains k = true :=
              List.elem_eq_true_of_mem hmem
            rw [hin'] at h3
            cases h3
      · intro k hm
        simp only [Redis.lookup]
        have hin' : (matchingKeys r).contains k = false := by
          apply contains_false_of_not_mem
          intro hmem
          unfold matchingKeys at hmem
          have h2m := (List.mem_filter.mp hmem).2
          rw [hm] at h2m
          cases h2m
        rw [find?_filter_keep _ _ _ hin']
    case true =>
      rw [clear_none_empty r hc hk hemp]
      have hnil : matchingKeys r = [] := List.isEmpty_iff.mp hemp
      refine ⟨?_, ?_, fun k hm => rfl⟩
      · rw [hnil]
        rfl
      · intro k hm
        cases hl : r.store.find? (fun e => e.1 == k) with
        | none => simp [Redis.lookup, hl]
        | some e =>
          exfalso
          have hmem : k ∈ matchingKeys r :=
            mem_matchingKeys_of_lookup r k e.2
              (by simp [Redis.lookup, hl]) hm
          rw [hnil] at hmem
          cases hmem
  · intro hconn
    simp [clear_analysis_cache, givenName, hconn]
  · intro hf
    by_cases hc : (r.connected && r.hasRedis) = true
    · rcases hf with hf | hf
      · simp [clear_analysis_cache, givenName, hc, Redis.rkeys, hf]
      · by_cases hk2 : r.failKeys = true
        · simp [clear_analysis_cache, givenName, hc, Redis.rkeys, hk2]
        · have hk2' : r.failKeys = false := by
            cases h : r.failKeys
            · rfl
            · exact absurd h hk2
          have hks : Redis.rkeys r "review_analysis:*" =
              .ok (matchingKeys r) := by
            simp [Redis.rkeys, hk2', matchingKeys]
          cases hemp : (matchingKeys r).isEmpty
          · simp [clear_analysis_cache, givenName, hc, hks, hemp,
              Redis.rdel, hf]
          · simp [clear_analysis_cache, givenName, hc, hks, hemp]
    · simp [clear_analysis_cache, givenName, hc]

set_option maxRecDepth 40000 in
/-- C7 counterexample: called WITH an identifier — the empty string —
on a store holding two namespace keys, `clear_analysis_cache` returns
2 (not 0 or 1) and deletes a key that is not the identifier's derived
key, because the source's truthiness test sends an empty identifier
down the delete-all-pattern branch. -/
theorem claim_C7_counterexample :
    (clear_analysis_cache
      (mkRedis [("review_analysis:a", "1"), ("review_analysis:b", "2")])
      (some "")).1 = 2 ∧
    (clear_analysis_cache
      (mkRedis [("review_analysis:a", "1"), ("review_analysis:b", "2")])
      (some "")).2.lookup "review_analysis:a" = none ∧
    "review_analysis:a" ≠ get_cache_key "" := by
  exact ⟨by decide, by decide, by decide⟩

/-- A connected backend with the derived key for `acme`, another
namespace key, and an unrelated key. -/
def rW : Redis := mkRedis [(get_cache_key "acme", "1"),
  ("review_analysis:bb", "2"), ("other", "3")]

set_option maxRecDepth 40000 in
/-- C7 witness (for the amended claim): concrete single-key and
pattern invalidations. -/
theorem claim_C7_witness :
    ((clear_analysis_cache rW (some "acme")).1 = 0 ∨
      (clear_analysis_cache rW (some "acme")).1 = 1) ∧
    (clear_analysis_cache rW (some "acme")).2.lookup
      (get_cache_key "acme") = none ∧
    (clear_analysis_cache rW (some "acme")).2.lookup "other" =
      rW.lookup "other" ∧
    (clear_analysis_cache rW none).1 = (matchingKeys rW).length ∧
    (clear_analysis_cache rW none).2.lookup "review_analysis:bb" =
      none := by
  have h := claim_C7_amended_invalidation rW "acme" (by decide)
  exact ⟨h.1, (h.2.1 rfl rfl rfl).1,
    (h.2.1 rfl rfl rfl).2 "other" (by decide),
    (h.2.2.2.2.1 rfl rfl rfl rfl).1,
    (h.2.2.2.2.1 rfl rfl rfl rfl).2.1 "review_analysis:bb" (by decide)⟩

mutual

/-- Whether a string occurs as a string leaf (a value, not a key) of a
Python value. -/
def hasStrLeaf : PyVal → String → Bool
  | .str s, t => s == t
  | .list xs, t => listHasStrLeaf xs t
  | .dict xs, t => dictHasStrLeaf xs t
  | _, _ => false

/-- String leaves of a list. -/
def listHasStrLeaf : PyList → String → Bool
  | .nil, _ => false
  | .cons v tl, t => hasStrLeaf v t || listHasStrLeaf tl t

/-- String leaves of a dict's values. -/
def dictHasStrLeaf : PyDict → String → Bool
  | .nil, _ => false
  | .cons _ v tl, t => hasStrLeaf v t || dictHasStrLeaf tl t

end

/-- With `ensure_ascii=False`, a non-ASCII character is never escaped:
it passes through the character escaper verbatim. -/
theorem escChar_nonascii (c : Char) (h : 128 ≤ c.toNat) :
    escChar c = String.singleton c := by
  have h1 : c ≠ '"' := by intro e; subst e; exact absurd h (by decide)
  have h2 : c ≠ '\\' := by intro e; subst e; exact absurd h (by decide)
  have h3 : c ≠ '\x08' := by intro e; subst e; exact absurd h (by decide)
  have h4 : c ≠ '\x0c' := by intro e; subst e; exact absurd h (by decide)
  have h5 : c ≠ '\n' := by intro e; subst e; exact absurd h (by decide)
  have h6 : c ≠ '\r' := by intro e; subst e; exact absurd h (by decide)
  have h7 : c ≠ '\t' := by intro e; subst e; exact absurd h (by decide)
  have h8 : ¬(c.toNat < 0x20) := by omega
  simp [escChar, h1, h2, h3, h4, h5, h6, h7, h8]

/-- A non-ASCII character of the input appears in the escaped body. -/
theorem mem_escBody (cs : List Char) (c : Char) (hc : c ∈ cs)
    (h : 128 ≤ c.toNat) : c ∈ (escBody cs).data := by
  induction cs with
  | nil => cases hc
  | cons a tl ih =>
    simp only [escBody, String.data_append]
    rcases List.mem_cons.mp hc with rfl | hc2
    · refine List.mem_append.mpr (Or.inl ?_)
      rw [escChar_nonascii c h]
      exact List.mem_singleton.mpr rfl
    · exact List.mem_append.mpr (Or.inr (ih hc2))

/-- A non-ASCII character of a string appears verbatim in its JSON
string literal. -/
theorem mem_escString (t : String) (c : Char) (hc : c ∈ t.data)
    (h : 128 ≤ c.toNat) : c ∈ (escString t).data := by
  simp only [escString, String.data_append]
  exact List.mem_append.mpr
    (Or.inl (List.mem_append.mpr (Or.inr (mem_escBody t.data c hc h))))

mutual

/-- Every non-ASCII character of every string leaf of a serialized
value appears verbatim in the JSON text. -/
theorem jsonDumps_pres (v : PyVal) (out : String)
    (hd : jsonDumps v = some out) (t : String)
    (hl : hasStrLeaf v t = true) (c : Char) (hc : c ∈ t.data)
    (ha : 128 ≤ c.toNat) : c ∈ out.data := by
  cases v with
  | vnone => simp [hasStrLeaf] at hl
  | bool b => simp [hasStrLeaf] at hl
  | int n => simp [hasStrLeaf] at hl
  | float q => simp [hasStrLeaf] at hl
  | pyobj cls attrs => simp [hasStrLeaf] at hl
  | str s =>
    simp only [jsonDumps, Option.some.injEq] at hd
    simp only [hasStrLeaf] at hl
    have : s = t := by simpa using hl
    subst this
    exact hd ▸ mem_escString s c hc ha
  | list xs =>
    simp only [hasStrLeaf] at hl
    cases hb : dumpsList xs with
    | none => rw [jsonDumps, hb] at hd; cases hd
    | some body =>
      rw [jsonDumps, hb] at hd
      simp only [Option.some.injEq] at hd
      subst hd
      simp only [String.data_append]
      exact List.mem_append.mpr (Or.inl (List.mem_append.mpr
        (Or.inr (dumpsList_pres xs body hb t hl c hc ha))))
  | dict xs =>
    simp only [hasStrLeaf] at hl
    cases hb : dumpsDict xs with
    | none => rw [jsonDumps, hb] at hd; cases hd
    | some body =>
      rw [jsonDumps, hb] at hd
      simp only [Option.some.injEq] at hd
      subst hd
      simp only [String.data_append]
      exact List.mem_append.mpr (Or.inl (List.mem_append.mpr
        (Or.inr (dumpsDict_pres xs body hb t hl c hc ha))))

/-- List version of `jsonDumps_pres`. -/
theorem dumpsList_pres (xs : PyList) (out : String)
    (hd : dumpsList xs = some out) (t : String)
    (hl : listHasStrLeaf xs t = true) (c : Char) (hc : c ∈ t.data)
    (ha : 128 ≤ c.toNat) : c ∈ out.data := by
  cases xs with
  | nil => simp [listHasStrLeaf] at hl
  | cons v tl =>
    cases tl with
    | nil =>
      simp only [dumpsList] at hd
      simp only [listHasStrLeaf] at hl
      have hl2 : hasStrLeaf v t = true := by simpa [listHasStrLeaf] using hl
      exact jsonDumps_pres v out hd t hl2 c hc ha
    | cons w tl2 =>
      cases h1 : jsonDumps v with
      | none => rw [dumpsList, h1] at hd; cases hd
      | some s1 =>
        cases h2 : dumpsList (.cons w tl2) with
        | none => rw [dumpsList, h1, h2] at hd; cases hd
        | some s2 =>
          rw [dumpsList, h1, h2] at hd
          simp only [Option.some.injEq] at hd
          subst hd
          simp only [listHasStrLeaf] at hl
          simp only [String.data_append]
          rcases Bool.or_eq_true_iff.mp hl with hl2 | hl2
          · exact List.mem_append.mpr (Or.inl (List.mem_append.mpr
              (Or.inl (jsonDumps_pres v s1 h1 t hl2 c hc ha))))
          · exact List.mem_append.mpr
              (Or.inr (dumpsList_pres (.cons w tl2) s2 h2 t hl2 c hc ha))

/-- Dict version of `jsonDumps_pres`. -/
theorem dumpsDict_pres (xs : PyDict) (out : String)
    (hd : dumpsDict xs = some out) (t : String)
    (hl : dictHasStrLeaf xs t = true) (c : Char) (hc : c ∈ t.data)
    (ha : 128 ≤ c.toNat) : c ∈ out.data := by
  cases xs with
  | nil => simp [dictHasStrLeaf] at hl
  | cons k v tl =>
    cases tl with
    | nil =>
      cases h1 : jsonDumps v with
      | none => rw [dumpsDict, h1] at hd; cases hd
      | some s1 =>
        rw [dumpsDict, h1] at hd
        simp only [Option.some.injEq] at hd
        subst hd
        have hl2 : hasStrLeaf v t = true := by
          simpa [dictHasStrLeaf] using hl
        simp only [String.data_append]
        exact List.mem_append.mpr
          (Or.inr (jsonDumps_pres v s1 h1 t hl2 c hc ha))
    | cons k2 w tl2 =>
      cases h1 : jsonDumps v with
      | none => rw [dumpsDict, h1] at hd; cases hd
      | some s1 =>
        cases h2 : dumpsDict (.cons k2 w tl2) with
        | none => rw [dumpsDict, h1, h2] at hd; cases hd
        | some s2 =>
          rw [dumpsDict, h1, h2] at hd
          simp only [Option.some.injEq] at hd
          subst hd
          simp only [dictHasStrLeaf] at hl
          simp only [String.data_append]
          rcases Bool.or_eq_true_iff.mp hl with hl2 | hl2
          · exact List.mem_append.mpr (Or.inl (List.mem_append.mpr
              (Or.inl (List.mem_append.mpr
                (Or.inr (jsonDumps_pres v s1 h1 t hl2 c hc ha))))))
          · exact List.mem_append.mpr
              (Or.inr (dumpsDict_pres (.cons k2 w tl2) s2 h2 t hl2 c hc ha))

end

/-- C9: on an available, write-healthy backend, a mapping or sequence
value is stored as exactly the single-line JSON text produced by the
`ensure_ascii=False` dump — under which every non-ASCII character of
every string leaf is preserved verbatim, never escaped — and a text
scalar is stored verbatim, unmodified. -/
theorem claim_C9_wire_format
    (r : Redis) (k : String) (v : PyVal) (ttl : Nat) (s : String)
    (hconn : r.connected = true) (hhr : r.hasRedis = true)
    (hfs : r.failSetex = false) :
    (isStructured v = true → jsonDumps v = some s →
      (set_to_cache r k v ttl).1 = true ∧
      (set_to_cache r k v ttl).2.lookup k = some s) ∧
    (∀ t, (set_to_cache r k (.str t) ttl).1 = true ∧
      (set_to_cache r k (.str t) ttl).2.lookup k = some t) ∧
    (∀ t c, c ∈ t.data → 128 ≤ c.toNat → c ∈ (escString t).data) ∧
    (isStructured v = true → jsonDumps v = some s →
      ∀ t, hasStrLeaf v t = true → ∀ c ∈ t.data, 128 ≤ c.toNat →
        c ∈ s.data) := by
  have hc : (r.connected && r.hasRedis) = true := by rw [hconn, hhr]; rfl
  have hstore : ∀ (w : PyVal) (sv : String), serializeValue w = some sv →
      (set_to_cache r k w ttl).1 = true ∧
      (set_to_cache r k w ttl).2.lookup k = some sv := by
    intro w sv hsv
    simp [set_to_cache, hc, hsv, Redis.rsetex, hfs, Redis.lookup]
  refine ⟨?_, ?_, fun t c hc2 ha => mem_escString t c hc2 ha, ?_⟩
  · intro hst hd
    apply hstore
    cases v <;> simp_all [serializeValue, isStructured]
  · intro t
    exact hstore (.str t) t rfl
  · intro hst hd t hl c hc2 ha
    exact jsonDumps_pres v s hd t hl c hc2 ha

set_option maxRecDepth 40000 in
/-- C9 witness: the mapping with the Korean string under key `k1` is
stored as its JSON text with the Korean characters unescaped. -/
theorem claim_C9_witness :
    (set_to_cache (mkRedis []) "k"
      (.dict (.cons "k1" (.str "한글") .nil)) 60).2.lookup "k" =
      some "\x7b\"k1\": \"한글\"\x7d" ∧
    '한' ∈ ("\x7b\"k1\": \"한글\"\x7d" : String).data := by
  have h := claim_C9_wire_format (mkRedis []) "k"
    (.dict (.cons "k1" (.str "한글") .nil)) 60 "\x7b\"k1\": \"한글\"\x7d"
    rfl rfl rfl
  refine ⟨(h.1 rfl (by decide)).2, ?_⟩
  exact h.2.2.2 rfl (by decide) "한글" (by decide) '한' (by decide)
    (by decide)
